import Mathlib

/-!
# Verification of the Mergington High School activity-signup service

Shallow embedding of `src/app.py` and `src/database.py`: a tiny web API that
lists extracurricular activities and lets a student sign up for, or
unregister from, one by email.

Modelling decisions:
* The relational store (`database.py`) becomes a `Store` of three lists
  (activities, students, registrations) together with the id counters the
  database's autoincrement primary keys provide (`nextStudentId`,
  `nextRegId`).  Timestamps (`created_at` etc.) are real-time data never read
  by any handler and are omitted.
* Each handler runs inside one SQLAlchemy session (`get_db` yields a session
  and closes it when the request ends; closing without `commit` rolls the
  session back).  A handler is therefore embedded as a function producing a
  `RunResult`: the session state at close time, whether `commit` was called,
  and the HTTP response.  The persisted store after a request is the session
  state when `commit` was reached and the unchanged input store otherwise.
* `db.query(T).filter(cond).first()` becomes `List.find?` on the
  corresponding list; `db.add` appends; `db.flush` assigns the next id;
  `db.delete(row)` removes the row with that primary key.
-/

namespace Mergington

/-- `Activity` model from `database.py`: autoincrement id, unique name,
description, schedule text, and a declared maximum participant count. -/
structure Activity where
  id : Nat
  name : String
  description : String
  schedule : String
  max_participants : Nat
  deriving Repr, DecidableEq

/-- `Student` model from `database.py`: autoincrement id, unique email, and
optional name and grade level. -/
structure Student where
  id : Nat
  email : String
  name : Option String
  grade_level : Option String
  deriving Repr, DecidableEq

/-- `Registration` model from `database.py`: join row linking one student to
one activity by their ids. -/
structure Registration where
  id : Nat
  student_id : Nat
  activity_id : Nat
  deriving Repr, DecidableEq

/-- The persisted relational store: the three tables plus the autoincrement
counters for the two tables the handlers insert into. -/
structure Store where
  activities : List Activity
  students : List Student
  registrations : List Registration
  nextStudentId : Nat
  nextRegId : Nat
  deriving Repr, DecidableEq

/-- An `HTTPException` as raised by the handlers: status code and detail. -/
structure HError where
  status_code : Nat
  detail : String
  deriving Repr, DecidableEq

/-- Outcome of one request handled inside one database session: the session
state at close time, whether `db.commit()` was called, and the response
(`Except.ok` is the JSON message, `Except.error` an `HTTPException`). -/
structure RunResult where
  session : Store
  committed : Bool
  response : Except HError String

/-- The store persisted after the request: the session state when the handler
committed, and the unchanged input store otherwise (a session closed by
`get_db` without commit is rolled back). -/
def persistedAfter (st : Store) (r : RunResult) : Store :=
  if r.committed then r.session else st

/-- The "Get or create student" step of `signup_for_activity`: look the
student up by email; if absent, add one with that email (no name/grade) and
flush, which assigns it the next autoincrement id.  Returns the student the
handler works with together with the session state. -/
def findOrCreateStudent (st : Store) (email : String) : Student × Store :=
  match st.students.find? (fun s => s.email == email) with
  | some s => (s, st)
  | none =>
      let s : Student := { id := st.nextStudentId, email := email,
                           name := none, grade_level := none }
      (s, { st with students := st.students ++ [s],
                    nextStudentId := st.nextStudentId + 1 })

/-- `POST /activities/{activity_name}/signup` from `app.py`:
get-or-create the student, look the activity up by name (404 if absent),
check for an existing registration of the pair (400 if present), otherwise
insert the registration and commit. -/
def signup_for_activity (st : Store) (activity_name email : String) :
    RunResult :=
  let fc := findOrCreateStudent st email
  let student := fc.1
  let s1 := fc.2
  match s1.activities.find? (fun a => a.name == activity_name) with
  | none =>
      { session := s1, committed := false,
        response := .error ⟨404, "Activity not found"⟩ }
  | some activity =>
      match s1.registrations.find?
          (fun r => r.student_id == student.id &&
                    r.activity_id == activity.id) with
      | some _ =>
          { session := s1, committed := false,
            response := .error ⟨400, "Student is already signed up"⟩ }
      | none =>
          let reg : Registration :=
            { id := s1.nextRegId, student_id := student.id,
              activity_id := activity.id }
          { session := { s1 with
              registrations := s1.registrations ++ [reg],
              nextRegId := s1.nextRegId + 1 },
            committed := true,
            response := .ok ("Signed up " ++ email ++ " for "
                             ++ activity_name) }

/-- `DELETE /activities/{activity_name}/unregister` from `app.py`:
look the student up by email (400 if absent), the activity by name (404 if
absent), the registration of the pair (400 if absent), then delete the
registration row and commit. -/
def unregister_from_activity (st : Store) (activity_name email : String) :
    RunResult :=
  match st.students.find? (fun s => s.email == email) with
  | none =>
      { session := st, committed := false,
        response := .error ⟨400, "Student not found"⟩ }
  | some student =>
      match st.activities.find? (fun a => a.name == activity_name) with
      | none =>
          { session := st, committed := false,
            response := .error ⟨404, "Activity not found"⟩ }
      | some activity =>
          match st.registrations.find?
              (fun r => r.student_id == student.id &&
                        r.activity_id == activity.id) with
          | none =>
              { session := st, committed := false,
                response := .error
                  ⟨400, "Student is not signed up for this activity"⟩ }
          | some registration =>
              { session := { st with registrations := st.registrations.filter (fun r => r.id != registration.id) },
                committed := true,
                response := .ok ("Unregistered " ++ email ++ " from "
                                 ++ activity_name) }

/-- Persisted store after a signup request. -/
def signupState (st : Store) (activity_name email : String) : Store :=
  persistedAfter st (signup_for_activity st activity_name email)

/-- Persisted store after an unregister request. -/
def unregisterState (st : Store) (activity_name email : String) : Store :=
  persistedAfter st (unregister_from_activity st activity_name email)

/-- One entry of the `GET /activities` response. -/
structure ActivityInfo where
  description : String
  schedule : String
  max_participants : Nat
  participants : List String
  deriving Repr, DecidableEq

/-- `activity.registrations` projected to the students' emails, as the list
comprehension in `get_activities` does: the registrations of the activity in
table order, each resolved through its `student` relationship.  (The foreign
key is non-null, so on well-formed stores the lookup always succeeds; a
dangling row would simply be skipped.) -/
def participantsOf (st : Store) (a : Activity) : List String :=
  (st.registrations.filter (fun r => r.activity_id == a.id)).filterMap
    (fun r => (st.students.find? (fun s => s.id == r.student_id)).map
      Student.email)

/-- `GET /activities` from `app.py`: every activity, keyed by name, with its
description, schedule, capacity and participant emails. -/
def get_activities (st : Store) : List (String × ActivityInfo) :=
  st.activities.map (fun a =>
    (a.name, { description := a.description, schedule := a.schedule,
               max_participants := a.max_participants,
               participants := participantsOf st a }))

/-- The at-most-one-registration-per-(student, activity)-pair invariant. -/
def AtMostOnePair (st : Store) : Prop :=
  st.registrations.Pairwise
    (fun r r' => r.student_id ≠ r'.student_id ∨ r.activity_id ≠ r'.activity_id)

/-- Store well-formedness: distinct primary keys, unique indexed columns
(`Student.email`, `Activity.name`), the pair invariant, the student foreign
key of every registration, and the autoincrement counters strictly above
every existing id.  Every store the seeded database reaches satisfies it. -/
def WF (st : Store) : Prop :=
  st.students.Pairwise (fun s s' => s.id ≠ s'.id) ∧
  st.students.Pairwise (fun s s' => s.email ≠ s'.email) ∧
  st.activities.Pairwise (fun a a' => a.id ≠ a'.id) ∧
  st.activities.Pairwise (fun a a' => a.name ≠ a'.name) ∧
  st.registrations.Pairwise (fun r r' => r.id ≠ r'.id) ∧
  AtMostOnePair st ∧
  (∀ r ∈ st.registrations, ∃ s ∈ st.students, s.id = r.student_id) ∧
  (∀ s ∈ st.students, s.id < st.nextStudentId) ∧
  (∀ r ∈ st.registrations, r.id < st.nextRegId)

instance (st : Store) : Decidable (AtMostOnePair st) := by
  unfold AtMostOnePair; infer_instance

instance (st : Store) : Decidable (WF st) := by
  unfold WF AtMostOnePair; infer_instance

/-- States reachable from `init` by any sequence of signup and unregister
requests (listing activities reads the store without modifying it). -/
inductive Reachable (init : Store) : Store → Prop where
  | refl : Reachable init init
  | signup {s : Store} (n e : String) :
      Reachable init s → Reachable init (signupState s n e)
  | unregister {s : Store} (n e : String) :
      Reachable init s → Reachable init (unregisterState s n e)

/-- A small concrete store used to instantiate theorems: "Chess Club" with
michael registered, one free slot nowhere (capacity 1, already full). -/
def demoStore : Store :=
  { activities := [⟨1, "Chess Club",
      "Learn strategies and compete in chess tournaments",
      "Fridays, 3:30 PM - 5:00 PM", 1⟩],
    students := [⟨1, "michael@mergington.edu", some "Michael", none⟩],
    registrations := [⟨1, 1, 1⟩],
    nextStudentId := 2,
    nextRegId := 2 }

example :
    (signup_for_activity demoStore "Chess Club" "daniel@mergington.edu").committed
      = true := by decide

example :
    (signup_for_activity demoStore "Chess Club"
      "michael@mergington.edu").response =
    .error ⟨400, "Student is already signed up"⟩ := by rfl

example :
    (unregister_from_activity demoStore "Chess Club"
      "ghost@mergington.edu").response =
    .error ⟨400, "Student not found"⟩ := by rfl

example : WF demoStore := by decide

example :
    participantsOf demoStore ⟨1, "Chess Club", "", "", 1⟩ =
      ["michael@mergington.edu"] := by rfl

/-! ## Generic list helpers -/

lemma find?_key_unique {α : Type} {p : α → Bool} {l : List α} {x : α}
    (hx : x ∈ l) (hpx : p x = true)
    (huniq : ∀ y ∈ l, p y = true → y = x) : l.find? p = some x := by
  have h1 : (l.find? p).isSome := List.find?_isSome.mpr ⟨x, hx, hpx⟩
  obtain ⟨y, hy⟩ := Option.isSome_iff_exists.mp h1
  have hyx := huniq y (List.mem_of_find?_eq_some hy) (List.find?_some hy)
  rw [hy, hyx]

lemma eq_of_pairwise_key {α κ : Type} (key : α → κ) {l : List α}
    (hp : l.Pairwise (fun a b => key a ≠ key b)) {x y : α}
    (hx : x ∈ l) (hy : y ∈ l) (hk : key x = key y) : x = y := by
  by_contra hne
  exact hp.forall (fun a b h => (h ∘ Eq.symm : key b ≠ key a)) hx hy hne hk

lemma countP_eq_one_of_pairwise {α : Type} {R : α → α → Prop} {p : α → Bool}
    {l : List α} (hR : ∀ a b : α, p a = true → p b = true → ¬ R a b)
    (hp : l.Pairwise R) {x : α} (hx : x ∈ l) (hpx : p x = true) :
    l.countP p = 1 := by
  induction l with
  | nil => cases hx
  | cons a l ih =>
    rw [List.pairwise_cons] at hp
    rw [List.countP_cons]
    by_cases hpa : p a = true
    · have hzero : l.countP p = 0 :=
        List.countP_eq_zero.mpr (fun b hb hpb => absurd (hp.1 b hb) (hR a b hpa hpb))
      simp [hpa, hzero]
    · have hxl : x ∈ l := by
        rcases List.mem_cons.mp hx with rfl | h
        · exact absurd hpx hpa
        · exact h
      rw [if_neg hpa, Nat.add_zero]
      exact ih hp.2 hxl

/-! ## Branch characterizations of the handlers -/

lemma fc_of_found {st : Store} {e : String} {s : Student}
    (h : st.students.find? (fun t => t.email == e) = some s) :
    findOrCreateStudent st e = (s, st) := by
  unfold findOrCreateStudent; rw [h]

lemma fc_of_missing {st : Store} {e : String}
    (h : st.students.find? (fun t => t.email == e) = none) :
    findOrCreateStudent st e =
      (⟨st.nextStudentId, e, none, none⟩,
       { st with
          students := st.students ++ [⟨st.nextStudentId, e, none, none⟩],
          nextStudentId := st.nextStudentId + 1 }) := by
  unfold findOrCreateStudent; rw [h]

lemma fc_activities (st : Store) (e : String) :
    ((findOrCreateStudent st e).2).activities = st.activities := by
  unfold findOrCreateStudent
  cases h : st.students.find? (fun t => t.email == e) <;> rfl

lemma fc_registrations (st : Store) (e : String) :
    ((findOrCreateStudent st e).2).registrations = st.registrations := by
  unfold findOrCreateStudent
  cases h : st.students.find? (fun t => t.email == e) <;> rfl

lemma fc_nextRegId (st : Store) (e : String) :
    ((findOrCreateStudent st e).2).nextRegId = st.nextRegId := by
  unfold findOrCreateStudent
  cases h : st.students.find? (fun t => t.email == e) <;> rfl

lemma fc_student_email (st : Store) (e : String) :
    ((findOrCreateStudent st e).1).email = e := by
  cases h : st.students.find? (fun t => t.email == e) with
  | none => rw [fc_of_missing h]
  | some s =>
    rw [fc_of_found h]
    have hp := List.find?_some h
    simp only [beq_iff_eq] at hp
    exact hp

lemma fc_student_mem (st : Store) (e : String) :
    (findOrCreateStudent st e).1 ∈ ((findOrCreateStudent st e).2).students := by
  unfold findOrCreateStudent
  cases h : st.students.find? (fun t => t.email == e) with
  | none => simp
  | some s => exact List.mem_of_find?_eq_some h

lemma signup_no_activity {st : Store} {n e : String}
    (h : st.activities.find? (fun a => a.name == n) = none) :
    signup_for_activity st n e =
      { session := (findOrCreateStudent st e).2, committed := false,
        response := .error ⟨404, "Activity not found"⟩ } := by
  simp only [signup_for_activity, fc_activities, h]

lemma signup_conflict {st : Store} {n e : String} {a : Activity}
    {r : Registration}
    (ha : st.activities.find? (fun x => x.name == n) = some a)
    (hr : st.registrations.find?
        (fun x => x.student_id == (findOrCreateStudent st e).1.id &&
                  x.activity_id == a.id) = some r) :
    signup_for_activity st n e =
      { session := (findOrCreateStudent st e).2, committed := false,
        response := .error ⟨400, "Student is already signed up"⟩ } := by
  simp only [signup_for_activity, fc_activities, fc_registrations, ha, hr]

lemma signup_ok {st : Store} {n e : String} {a : Activity}
    (ha : st.activities.find? (fun x => x.name == n) = some a)
    (hr : st.registrations.find?
        (fun x => x.student_id == (findOrCreateStudent st e).1.id &&
                  x.activity_id == a.id) = none) :
    signup_for_activity st n e =
      { session := { (findOrCreateStudent st e).2 with
          registrations := st.registrations ++
            [⟨st.nextRegId, (findOrCreateStudent st e).1.id, a.id⟩],
          nextRegId := st.nextRegId + 1 },
        committed := true,
        response := .ok ("Signed up " ++ e ++ " for " ++ n) } := by
  simp only [signup_for_activity, fc_activities, fc_registrations, fc_nextRegId,
    ha, hr]

lemma unregister_no_student {st : Store} {n e : String}
    (h : st.students.find? (fun t => t.email == e) = none) :
    unregister_from_activity st n e =
      { session := st, committed := false,
        response := .error ⟨400, "Student not found"⟩ } := by
  unfold unregister_from_activity; rw [h]

lemma unregister_no_activity {st : Store} {n e : String} {s : Student}
    (hs : st.students.find? (fun t => t.email == e) = some s)
    (ha : st.activities.find? (fun a => a.name == n) = none) :
    unregister_from_activity st n e =
      { session := st, committed := false,
        response := .error ⟨404, "Activity not found"⟩ } := by
  unfold unregister_from_activity; rw [hs, ha]

lemma unregister_no_reg {st : Store} {n e : String} {s : Student}
    {a : Activity}
    (hs : st.students.find? (fun t => t.email == e) = some s)
    (ha : st.activities.find? (fun x => x.name == n) = some a)
    (hr : st.registrations.find?
        (fun x => x.student_id == s.id && x.activity_id == a.id) = none) :
    unregister_from_activity st n e =
      { session := st, committed := false,
        response := .error
          ⟨400, "Student is not signed up for this activity"⟩ } := by
  simp only [unregister_from_activity, hs, ha, hr]

lemma unregister_ok {st : Store} {n e : String} {s : Student} {a : Activity}
    {r : Registration}
    (hs : st.students.find? (fun t => t.email == e) = some s)
    (ha : st.activities.find? (fun x => x.name == n) = some a)
    (hr : st.registrations.find?
        (fun x => x.student_id == s.id && x.activity_id == a.id) = some r) :
    unregister_from_activity st n e =
      { session := { st with
          registrations := st.registrations.filter (fun x => x.id != r.id) },
        committed := true,
        response := .ok ("Unregistered " ++ e ++ " from " ++ n) } := by
  simp only [unregister_from_activity, hs, ha, hr]

lemma persistedAfter_of_committed {st : Store} {r : RunResult}
    (h : r.committed = true) : persistedAfter st r = r.session := by
  simp [persistedAfter, h]

lemma persistedAfter_of_not_committed {st : Store} {r : RunResult}
    (h : r.committed = false) : persistedAfter st r = st := by
  simp [persistedAfter, h]

/-- A committed signup went through the success branch: the activity was
found and no registration for the pair existed. -/
lemma signup_committed_ok {st : Store} {n e : String}
    (h : (signup_for_activity st n e).committed = true) :
    ∃ a, st.activities.find? (fun x => x.name == n) = some a ∧
      st.registrations.find?
        (fun x => x.student_id == (findOrCreateStudent st e).1.id &&
                  x.activity_id == a.id) = none := by
  cases ha : st.activities.find? (fun x => x.name == n) with
  | none => rw [signup_no_activity ha] at h; cases h
  | some a =>
    cases hr : st.registrations.find?
        (fun x => x.student_id == (findOrCreateStudent st e).1.id &&
                  x.activity_id == a.id) with
    | some r => rw [signup_conflict ha hr] at h; cases h
    | none => exact ⟨a, rfl, hr⟩

/-- A signup that returned an error did not commit. -/
lemma signup_error_not_committed {st : Store} {n e : String} {err : HError}
    (h : (signup_for_activity st n e).response = .error err) :
    (signup_for_activity st n e).committed = false := by
  cases ha : st.activities.find? (fun x => x.name == n) with
  | none => rw [signup_no_activity ha]
  | some a =>
    cases hr : st.registrations.find?
        (fun x => x.student_id == (findOrCreateStudent st e).1.id &&
                  x.activity_id == a.id) with
    | some r => rw [signup_conflict ha hr]
    | none => rw [signup_ok ha hr] at h; cases h

/-- A committed unregister went through the success branch. -/
lemma unregister_committed_ok {st : Store} {n e : String}
    (h : (unregister_from_activity st n e).committed = true) :
    ∃ s a r, st.students.find? (fun t => t.email == e) = some s ∧
      st.activities.find? (fun x => x.name == n) = some a ∧
      st.registrations.find?
        (fun x => x.student_id == s.id && x.activity_id == a.id) = some r := by
  cases hs : st.students.find? (fun t => t.email == e) with
  | none => rw [unregister_no_student hs] at h; cases h
  | some s =>
    cases ha : st.activities.find? (fun x => x.name == n) with
    | none => rw [unregister_no_activity hs ha] at h; cases h
    | some a =>
      cases hr : st.registrations.find?
          (fun x => x.student_id == s.id && x.activity_id == a.id) with
      | none => rw [unregister_no_reg hs ha hr] at h; cases h
      | some r => exact ⟨s, a, r, rfl, rfl, hr⟩

/-! ## Counting the occurrences of an email in a participant list -/

lemma count_filterMap_resolve {students : List Student} {s : Student}
    (hids : students.Pairwise (fun a b => a.id ≠ b.id))
    (hemails : students.Pairwise (fun a b => a.email ≠ b.email))
    (hs : s ∈ students) (aid : Nat) (regs : List Registration) :
    List.count s.email
      ((regs.filter (fun r => r.activity_id == aid)).filterMap
        (fun r => (students.find? (fun t => t.id == r.student_id)).map
          Student.email))
    = regs.countP
        (fun r => r.student_id == s.id && r.activity_id == aid) := by
  induction regs with
  | nil => rfl
  | cons r rs ih =>
    rw [List.filter_cons, List.countP_cons]
    by_cases hact : r.activity_id = aid
    · rw [if_pos (by simpa using hact), List.filterMap_cons]
      cases hf : students.find? (fun t => t.id == r.student_id) with
      | none =>
        have hns : r.student_id ≠ s.id := by
          intro hsid
          have hfs := List.find?_eq_none.mp hf s hs
          simp [hsid] at hfs
        have hpred : (r.student_id == s.id && r.activity_id == aid) = false := by
          simp [hns]
        simp only [Option.map_none']
        rw [hpred, if_neg (by simp), Nat.add_zero]
        exact ih
      | some t =>
        have htid : t.id = r.student_id := by
          simpa using List.find?_some hf
        have htmem := List.mem_of_find?_eq_some hf
        simp only [Option.map_some']
        rw [List.count_cons, ih]
        by_cases hte : t.email = s.email
        · have hts : t = s := eq_of_pairwise_key Student.email hemails htmem hs hte
          have hpred : (r.student_id == s.id && r.activity_id == aid) = true := by
            simp [hact, ← hts, ← htid]
          rw [hpred, if_pos (by simpa using hte)]
          simp
        · have hpred : (r.student_id == s.id && r.activity_id == aid) = false := by
            have hns : r.student_id ≠ s.id := by
              intro hsid
              exact hte (congrArg Student.email
                (eq_of_pairwise_key Student.id hids htmem hs (by rw [htid, hsid])))
            simp [hns]
          rw [hpred, if_neg (by simpa using hte)]
          simp
    · rw [if_neg (by simpa using hact)]
      have hpred : (r.student_id == s.id && r.activity_id == aid) = false := by
        simp [hact]
      rw [hpred, if_neg (by simp), Nat.add_zero]
      exact ih

/-- On a store with unique student ids and emails, the number of occurrences
of a student's email in an activity's participant list equals the number of
registrations linking that student to that activity. -/
lemma count_participantsOf {st : Store} {s : Student}
    (hids : st.students.Pairwise (fun a b => a.id ≠ b.id))
    (hemails : st.students.Pairwise (fun a b => a.email ≠ b.email))
    (hs : s ∈ st.students) (a : Activity) :
    List.count s.email (participantsOf st a)
    = st.registrations.countP
        (fun r => r.student_id == s.id && r.activity_id == a.id) :=
  count_filterMap_resolve hids hemails hs a.id st.registrations

/-- Under the at-most-one-pair invariant, a pair that is registered is
registered by exactly one row. -/
lemma countP_pair_eq_one {regs : List Registration}
    (hp : regs.Pairwise
      (fun r r' => r.student_id ≠ r'.student_id ∨ r.activity_id ≠ r'.activity_id))
    {r : Registration} (hr : r ∈ regs) {sid aid : Nat}
    (h1 : r.student_id = sid) (h2 : r.activity_id = aid) :
    regs.countP (fun x => x.student_id == sid && x.activity_id == aid) = 1 := by
  refine countP_eq_one_of_pairwise ?_ hp hr (by simp [h1, h2])
  intro x y hx hy hxy
  simp only [Bool.and_eq_true, beq_iff_eq] at hx hy
  rcases hxy with h | h
  · exact h (hx.1.trans hy.1.symm)
  · exact h (hx.2.trans hy.2.symm)

/-! ## Claims -/

/-- **C3**: for every store state and every email (seen or unseen), signup
with an activity name that matches no Activity fails with NotFound
(HTTP 404, detail "Activity not found"); the statement quantifies over all
emails with no hypothesis on the email because the activity lookup is its
own step after the student step. -/
theorem signup_unknown_activity_not_found (st : Store) (n e : String)
    (h : ∀ a ∈ st.activities, a.name ≠ n) :
    (signup_for_activity st n e).response =
      .error ⟨404, "Activity not found"⟩ := by
  have hf : st.activities.find? (fun a => a.name == n) = none :=
    List.find?_eq_none.mpr (fun a ha => by simp [h a ha])
  rw [signup_no_activity hf]

theorem signup_unknown_activity_not_found_witness :
    (signup_for_activity demoStore "Knitting Club"
      "michael@mergington.edu").response =
      .error ⟨404, "Activity not found"⟩ :=
  signup_unknown_activity_not_found demoStore "Knitting Club"
    "michael@mergington.edu" (by decide)

/-- **C8**: students are created lazily on first signup.  When the signup
commits: if the email matched no existing Student, the persisted store's
student table is the old one extended with exactly one Student carrying that
email and no name or grade level (so that Student exists afterwards); if the
email was already seen, the student table is unchanged. -/
theorem signup_lazy_student_creation (st : Store) (n e : String)
    (hok : (signup_for_activity st n e).committed = true) :
    ((∀ s ∈ st.students, s.email ≠ e) →
        (signupState st n e).students =
          st.students ++ [⟨st.nextStudentId, e, none, none⟩]) ∧
    ((∃ s ∈ st.students, s.email = e) →
        (signupState st n e).students = st.students) := by
  obtain ⟨a, ha, hr⟩ := signup_committed_ok hok
  have heq := signup_ok ha hr
  have hstate : (signupState st n e).students =
      ((findOrCreateStudent st e).2).students := by
    rw [signupState, heq, persistedAfter_of_committed rfl]
  constructor
  · intro hnone
    have hf : st.students.find? (fun t => t.email == e) = none :=
      List.find?_eq_none.mpr (fun s hsmem => by simp [hnone s hsmem])
    rw [hstate, fc_of_missing hf]
  · intro hsome
    obtain ⟨s, hsmem, hse⟩ := hsome
    have hf : (st.students.find? (fun t => t.email == e)).isSome :=
      List.find?_isSome.mpr ⟨s, hsmem, by simp [hse]⟩
    obtain ⟨t, hft⟩ := Option.isSome_iff_exists.mp hf
    rw [hstate, fc_of_found hft]

theorem signup_lazy_student_creation_witness :
    (signupState demoStore "Chess Club" "daniel@mergington.edu").students =
      demoStore.students ++ [⟨2, "daniel@mergington.edu", none, none⟩] :=
  (signup_lazy_student_creation demoStore "Chess Club"
    "daniel@mergington.edu" (by decide)).1 (by decide)

/-- **C9**: signup and unregister modify only the registration table, except
that signup may additionally append exactly one new Student (with the given
email and no name or grade level).  The persisted activity table is always
unchanged, and the persisted student table is unchanged by unregister and
either unchanged or extended by one record by signup; in particular no
Student or Activity is ever deleted and no pre-existing record is altered. -/
theorem handlers_touch_only_registrations (st : Store) (n e : String) :
    (signupState st n e).activities = st.activities ∧
    ((signupState st n e).students = st.students ∨
      ∃ t : Student, t.email = e ∧ t.name = none ∧ t.grade_level = none ∧
        (signupState st n e).students = st.students ++ [t]) ∧
    (unregisterState st n e).activities = st.activities ∧
    (unregisterState st n e).students = st.students := by
  have hsignup : (signupState st n e).activities = st.activities ∧
      ((signupState st n e).students = st.students ∨
        ∃ t : Student, t.email = e ∧ t.name = none ∧ t.grade_level = none ∧
          (signupState st n e).students = st.students ++ [t]) := by
    cases ha : st.activities.find? (fun x => x.name == n) with
    | none =>
      have hst : signupState st n e = st := by
        rw [signupState, signup_no_activity ha, persistedAfter_of_not_committed rfl]
      rw [hst]; exact ⟨rfl, Or.inl rfl⟩
    | some a =>
      cases hr : st.registrations.find?
          (fun x => x.student_id == (findOrCreateStudent st e).1.id &&
                    x.activity_id == a.id) with
      | some r =>
        have hst : signupState st n e = st := by
          rw [signupState, signup_conflict ha hr,
            persistedAfter_of_not_committed rfl]
        rw [hst]; exact ⟨rfl, Or.inl rfl⟩
      | none =>
        have hact : (signupState st n e).activities = st.activities := by
          rw [signupState, signup_ok ha hr, persistedAfter_of_committed rfl]
          exact fc_activities st e
        have hstu : (signupState st n e).students =
            ((findOrCreateStudent st e).2).students := by
          rw [signupState, signup_ok ha hr, persistedAfter_of_committed rfl]
        refine ⟨hact, ?_⟩
        cases hf : st.students.find? (fun t => t.email == e) with
        | some s => exact Or.inl (by rw [hstu, fc_of_found hf])
        | none =>
          exact Or.inr ⟨⟨st.nextStudentId, e, none, none⟩, rfl, rfl, rfl,
            by rw [hstu, fc_of_missing hf]⟩
  have hunreg : (unregisterState st n e).activities = st.activities ∧
      (unregisterState st n e).students = st.students := by
    cases hs : st.students.find? (fun t => t.email == e) with
    | none =>
      have hst : unregisterState st n e = st := by
        rw [unregisterState, unregister_no_student hs,
          persistedAfter_of_not_committed rfl]
      rw [hst]; exact ⟨rfl, rfl⟩
    | some s =>
      cases ha : st.activities.find? (fun x => x.name == n) with
      | none =>
        have hst : unregisterState st n e = st := by
          rw [unregisterState, unregister_no_activity hs ha,
            persistedAfter_of_not_committed rfl]
        rw [hst]; exact ⟨rfl, rfl⟩
      | some a =>
        cases hr : st.registrations.find?
            (fun x => x.student_id == s.id && x.activity_id == a.id) with
        | none =>
          have hst : unregisterState st n e = st := by
            rw [unregisterState, unregister_no_reg hs ha hr,
              persistedAfter_of_not_committed rfl]
          rw [hst]; exact ⟨rfl, rfl⟩
        | some r =>
          have hst : unregisterState st n e =
              { st with registrations :=
                  st.registrations.filter (fun x => x.id != r.id) } := by
            rw [unregisterState, unregister_ok hs ha hr,
              persistedAfter_of_committed rfl]
          rw [hst]; exact ⟨rfl, rfl⟩
  exact ⟨hsignup.1, hsignup.2, hunreg.1, hunreg.2⟩

/-- **C10**: whenever signup fails, the persisted store is completely
unchanged: the handler did not commit, so the session is rolled back by
`get_db`'s close.  In particular the Student lazily created in step 1 for an
unseen email exists in the discarded session but is never persisted. -/
theorem signup_failure_rolls_back (st : Store) (n e : String)
    (herr : ∃ err, (signup_for_activity st n e).response = .error err) :
    (signup_for_activity st n e).committed = false ∧
    signupState st n e = st ∧
    ((∀ s ∈ st.students, s.email ≠ e) →
      (signup_for_activity st n e).session.students =
        st.students ++ [⟨st.nextStudentId, e, none, none⟩]) := by
  obtain ⟨err, herr⟩ := herr
  have hc := signup_error_not_committed herr
  refine ⟨hc, by rw [signupState, persistedAfter_of_not_committed hc], ?_⟩
  intro hnone
  have hf : st.students.find? (fun t => t.email == e) = none :=
    List.find?_eq_none.mpr (fun s hsmem => by simp [hnone s hsmem])
  have hsess : (signup_for_activity st n e).session =
      (findOrCreateStudent st e).2 := by
    cases ha : st.activities.find? (fun x => x.name == n) with
    | none => rw [signup_no_activity ha]
    | some a =>
      cases hr : st.registrations.find?
          (fun x => x.student_id == (findOrCreateStudent st e).1.id &&
                    x.activity_id == a.id) with
      | some r => rw [signup_conflict ha hr]
      | none => rw [signup_ok ha hr] at herr; cases herr
  rw [hsess, fc_of_missing hf]

theorem signup_failure_rolls_back_witness :
    signupState demoStore "Knitting Club" "new@mergington.edu" = demoStore ∧
    (signup_for_activity demoStore "Knitting Club"
      "new@mergington.edu").session.students =
      demoStore.students ++ [⟨2, "new@mergington.edu", none, none⟩] :=
  ⟨(signup_failure_rolls_back demoStore "Knitting Club" "new@mergington.edu"
      ⟨⟨404, "Activity not found"⟩, rfl⟩).2.1,
   (signup_failure_rolls_back demoStore "Knitting Club" "new@mergington.edu"
      ⟨⟨404, "Activity not found"⟩, rfl⟩).2.2 (by decide)⟩

/-- **C4**: unregister for a pair with no matching Registration fails with
InvalidRequest (HTTP 400) and leaves the store unchanged.  When the email
matches no Student it fails with "Student not found" before the activity is
even looked up — the conclusion holds for every activity name, known or not,
so an unknown student plus unknown activity yields 400, not 404.  When
student and activity exist but no Registration links them, it fails with
"Student is not signed up for this activity". -/
theorem unregister_unmatched_fails (st : Store) (n e : String) (hwf : WF st) :
    ((∀ s ∈ st.students, s.email ≠ e) →
      (unregister_from_activity st n e).response =
        .error ⟨400, "Student not found"⟩ ∧
      unregisterState st n e = st) ∧
    (∀ s ∈ st.students, s.email = e → ∀ a ∈ st.activities, a.name = n →
      (∀ r ∈ st.registrations,
        ¬(r.student_id = s.id ∧ r.activity_id = a.id)) →
      (unregister_from_activity st n e).response =
        .error ⟨400, "Student is not signed up for this activity"⟩ ∧
      unregisterState st n e = st) := by
  obtain ⟨hsid, hsemail, haid, haname, hrid, hpair, hfk, hsb, hrb⟩ := hwf
  constructor
  · intro hnone
    have hf : st.students.find? (fun t => t.email == e) = none :=
      List.find?_eq_none.mpr (fun s hsmem => by simp [hnone s hsmem])
    rw [unregister_no_student hf]
    exact ⟨rfl, by rw [unregisterState, unregister_no_student hf,
      persistedAfter_of_not_committed rfl]⟩
  · intro s hsmem hse a hamem han hnoreg
    have hfs : st.students.find? (fun t => t.email == e) = some s := by
      refine find?_key_unique hsmem (by simp [hse]) ?_
      intro y hy hye
      exact eq_of_pairwise_key Student.email hsemail hy hsmem
        (by rw [eq_of_beq hye, hse])
    have hfa : st.activities.find? (fun x => x.name == n) = some a := by
      refine find?_key_unique hamem (by simp [han]) ?_
      intro y hy hyn
      exact eq_of_pairwise_key Activity.name haname hy hamem
        (by rw [eq_of_beq hyn, han])
    have hfr : st.registrations.find?
        (fun x => x.student_id == s.id && x.activity_id == a.id) = none := by
      refine List.find?_eq_none.mpr (fun r hrmem => ?_)
      have := hnoreg r hrmem
      simp only [Bool.and_eq_true, beq_iff_eq, not_and]
      intro h1
      exact fun h2 => this ⟨h1, h2⟩
    rw [unregister_no_reg hfs hfa hfr]
    exact ⟨rfl, by rw [unregisterState, unregister_no_reg hfs hfa hfr,
      persistedAfter_of_not_committed rfl]⟩

theorem unregister_unmatched_fails_witness :
    (unregister_from_activity demoStore "Knitting Club"
      "ghost@mergington.edu").response =
      .error ⟨400, "Student not found"⟩ :=
  ((unregister_unmatched_fails demoStore "Knitting Club"
    "ghost@mergington.edu" (by decide)).1 (by decide)).1

/-- **C2**: in a state where a student with the given email is already
registered for the activity, a second signup for the same (activity name,
email) fails with Conflict (HTTP 400, detail "Student is already signed up")
and afterwards the activity's entry in the list-activities output still
contains exactly one occurrence of that email. -/
theorem duplicate_signup_conflict (st : Store) (n e : String) (hwf : WF st)
    (s : Student) (hsmem : s ∈ st.students) (hse : s.email = e)
    (a : Activity) (hamem : a ∈ st.activities) (han : a.name = n)
    (r : Registration) (hrmem : r ∈ st.registrations)
    (hrs : r.student_id = s.id) (hra : r.activity_id = a.id) :
    (signup_for_activity st n e).response =
      .error ⟨400, "Student is already signed up"⟩ ∧
    ∀ q ∈ get_activities (signupState st n e), q.1 = n →
      List.count e q.2.participants = 1 := by
  obtain ⟨hsid, hsemail, haid, haname, hrid, hpair, hfk, hsb, hrb⟩ := hwf
  have hfs : st.students.find? (fun t => t.email == e) = some s := by
    refine find?_key_unique hsmem (by simp [hse]) ?_
    intro y hy hye
    exact eq_of_pairwise_key Student.email hsemail hy hsmem
      (by rw [eq_of_beq hye, hse])
  have hfa : st.activities.find? (fun x => x.name == n) = some a := by
    refine find?_key_unique hamem (by simp [han]) ?_
    intro y hy hyn
    exact eq_of_pairwise_key Activity.name haname hy hamem
      (by rw [eq_of_beq hyn, han])
  have hfc : findOrCreateStudent st e = (s, st) := fc_of_found hfs
  have hfr : (st.registrations.find?
      (fun x => x.student_id == (findOrCreateStudent st e).1.id &&
                x.activity_id == a.id)).isSome := by
    refine List.find?_isSome.mpr ⟨r, hrmem, ?_⟩
    simp [hfc, hrs, hra]
  obtain ⟨r0, hfr0⟩ := Option.isSome_iff_exists.mp hfr
  have heq := signup_conflict hfa hfr0
  have hstate : signupState st n e = st := by
    rw [signupState, heq, persistedAfter_of_not_committed rfl]
  refine ⟨by rw [heq], ?_⟩
  intro q hq hqn
  rw [hstate] at hq
  simp only [get_activities, List.mem_map] at hq
  obtain ⟨a1, ha1mem, rfl⟩ := hq
  have hqn1 : a1.name = n := hqn
  have ha1 : a1 = a :=
    eq_of_pairwise_key Activity.name haname ha1mem hamem (by rw [hqn1, han])
  subst ha1
  show List.count e (participantsOf st a1) = 1
  rw [← hse, count_participantsOf hsid hsemail hsmem]
  exact countP_pair_eq_one hpair hrmem hrs hra

theorem duplicate_signup_conflict_witness :
    (signup_for_activity demoStore "Chess Club"
      "michael@mergington.edu").response =
      .error ⟨400, "Student is already signed up"⟩ :=
  (duplicate_signup_conflict demoStore "Chess Club" "michael@mergington.edu"
    (by decide) ⟨1, "michael@mergington.edu", some "Michael", none⟩
    (by decide) rfl
    ⟨1, "Chess Club", "Learn strategies and compete in chess tournaments",
      "Fridays, 3:30 PM - 5:00 PM", 1⟩ (by decide) rfl
    ⟨1, 1, 1⟩ (by decide) rfl rfl).1

lemma fc_students_id_pairwise (st : Store) (e : String)
    (hids : st.students.Pairwise (fun a b => a.id ≠ b.id))
    (hbound : ∀ s ∈ st.students, s.id < st.nextStudentId) :
    ((findOrCreateStudent st e).2).students.Pairwise
      (fun a b => a.id ≠ b.id) := by
  cases hf : st.students.find? (fun t => t.email == e) with
  | some s => rw [fc_of_found hf]; exact hids
  | none =>
    have hstu : ((findOrCreateStudent st e).2).students =
        st.students ++ [⟨st.nextStudentId, e, none, none⟩] := by
      rw [fc_of_missing hf]
    rw [hstu]
    refine List.pairwise_append.mpr ⟨hids, by simp, ?_⟩
    intro x hx b hb
    have hb1 : b = ⟨st.nextStudentId, e, none, none⟩ := by simpa using hb
    subst hb1
    exact Nat.ne_of_lt (hbound x hx)

lemma fc_students_email_pairwise (st : Store) (e : String)
    (hemails : st.students.Pairwise (fun a b => a.email ≠ b.email)) :
    ((findOrCreateStudent st e).2).students.Pairwise
      (fun a b => a.email ≠ b.email) := by
  cases hf : st.students.find? (fun t => t.email == e) with
  | some s => rw [fc_of_found hf]; exact hemails
  | none =>
    have hstu : ((findOrCreateStudent st e).2).students =
        st.students ++ [⟨st.nextStudentId, e, none, none⟩] := by
      rw [fc_of_missing hf]
    rw [hstu]
    refine List.pairwise_append.mpr ⟨hemails, by simp, ?_⟩
    intro x hx b hb
    have hb1 : b = ⟨st.nextStudentId, e, none, none⟩ := by simpa using hb
    subst hb1
    have := List.find?_eq_none.mp hf x hx
    simpa using this

/-- **C6**: immediately after a successful signup of an email for an
activity, the list-activities output for that activity contains that email
exactly once in its participants list. -/
theorem signup_email_exactly_once (st : Store) (n e : String) (hwf : WF st)
    (hok : (signup_for_activity st n e).committed = true) :
    ∀ q ∈ get_activities (signupState st n e), q.1 = n →
      List.count e q.2.participants = 1 := by
  obtain ⟨hsid, hsemail, haid, haname, hrid, hpair, hfk, hsb, hrb⟩ := hwf
  obtain ⟨a, ha, hr⟩ := signup_committed_ok hok
  have heq := signup_ok ha hr
  have hA : (signupState st n e).activities = st.activities := by
    rw [signupState, heq, persistedAfter_of_committed rfl]
    exact fc_activities st e
  have hS : (signupState st n e).students =
      ((findOrCreateStudent st e).2).students := by
    rw [signupState, heq, persistedAfter_of_committed rfl]
  have hR : (signupState st n e).registrations = st.registrations ++
      [⟨st.nextRegId, (findOrCreateStudent st e).1.id, a.id⟩] := by
    rw [signupState, heq, persistedAfter_of_committed rfl]
  intro q hq hqn
  simp only [get_activities, List.mem_map] at hq
  obtain ⟨a1, ha1mem, rfl⟩ := hq
  have ha1mem1 : a1 ∈ st.activities := hA ▸ ha1mem
  have hqn1 : a1.name = n := hqn
  have hamem : a ∈ st.activities := List.mem_of_find?_eq_some ha
  have han : a.name = n := by simpa using List.find?_some ha
  have ha1 : a1 = a :=
    eq_of_pairwise_key Activity.name haname ha1mem1 hamem (by rw [hqn1, han])
  show List.count e (participantsOf (signupState st n e) a1) = 1
  have hsmem : (findOrCreateStudent st e).1 ∈ (signupState st n e).students := by
    rw [hS]; exact fc_student_mem st e
  have hqid : (signupState st n e).students.Pairwise
      (fun x y => x.id ≠ y.id) := by
    rw [hS]; exact fc_students_id_pairwise st e hsid hsb
  have hqem : (signupState st n e).students.Pairwise
      (fun x y => x.email ≠ y.email) := by
    rw [hS]; exact fc_students_email_pairwise st e hsemail
  have hcount := count_participantsOf hqid hqem hsmem a1
  rw [fc_student_email st e] at hcount
  rw [hcount, hR, ha1, List.countP_append]
  have hzero : st.registrations.countP
      (fun x => x.student_id == (findOrCreateStudent st e).1.id &&
                x.activity_id == a.id) = 0 :=
    List.countP_eq_zero.mpr (fun x hx => by
      have := List.find?_eq_none.mp hr x hx
      simpa using this)
  rw [hzero]
  simp

theorem signup_email_exactly_once_witness :
    List.count "daniel@mergington.edu"
      (("Chess Club",
        ⟨"Learn strategies and compete in chess tournaments",
          "Fridays, 3:30 PM - 5:00 PM", 1,
          ["michael@mergington.edu", "daniel@mergington.edu"]⟩) :
        String × ActivityInfo).2.participants = 1 :=
  signup_email_exactly_once demoStore "Chess Club" "daniel@mergington.edu"
    (by decide) (by decide) _ (by decide) rfl

/-- **C7**: signup never consults `max_participants`.  Whenever the activity
exists and the (student, activity) pair is not yet registered, signup
commits and returns the success message even under the hypothesis that the
activity's current participant count is at or above `max_participants`. -/
theorem signup_ignores_capacity (st : Store) (n e : String) (hwf : WF st)
    (a : Activity) (hamem : a ∈ st.activities) (han : a.name = n)
    (hfull : a.max_participants ≤ (participantsOf st a).length)
    (hnoreg : ∀ s ∈ st.students, s.email = e →
      ∀ r ∈ st.registrations,
        ¬(r.student_id = s.id ∧ r.activity_id = a.id)) :
    (signup_for_activity st n e).committed = true ∧
    (signup_for_activity st n e).response =
      .ok ("Signed up " ++ e ++ " for " ++ n) := by
  obtain ⟨hsid, hsemail, haid, haname, hrid, hpair, hfk, hsb, hrb⟩ := hwf
  have hfa : st.activities.find? (fun x => x.name == n) = some a := by
    refine find?_key_unique hamem (by simp [han]) ?_
    intro y hy hyn
    exact eq_of_pairwise_key Activity.name haname hy hamem
      (by rw [eq_of_beq hyn, han])
  have hfr : st.registrations.find?
      (fun x => x.student_id == (findOrCreateStudent st e).1.id &&
                x.activity_id == a.id) = none := by
    refine List.find?_eq_none.mpr (fun r hrmem => ?_)
    cases hf : st.students.find? (fun t => t.email == e) with
    | some s =>
      have hfc := fc_of_found hf
      have hse : s.email = e := by simpa using List.find?_some hf
      have hnr := hnoreg s (List.mem_of_find?_eq_some hf) hse r hrmem
      rw [hfc]
      simp only [Bool.and_eq_true, beq_iff_eq, not_and]
      exact fun h1 h2 => hnr ⟨h1, h2⟩
    | none =>
      have hfc := fc_of_missing hf
      obtain ⟨t, htmem, htid⟩ := hfk r hrmem
      have hlt : r.student_id < st.nextStudentId := htid ▸ hsb t htmem
      rw [hfc]
      simp only [Bool.and_eq_true, beq_iff_eq, not_and]
      intro h1
      exact absurd h1 (Nat.ne_of_lt hlt)
  rw [signup_ok hfa hfr]
  exact ⟨rfl, rfl⟩

theorem signup_ignores_capacity_witness :
    (signup_for_activity demoStore "Chess Club"
      "daniel@mergington.edu").committed = true :=
  (signup_ignores_capacity demoStore "Chess Club" "daniel@mergington.edu"
    (by decide)
    ⟨1, "Chess Club", "Learn strategies and compete in chess tournaments",
      "Fridays, 3:30 PM - 5:00 PM", 1⟩
    (by decide) rfl (by decide) (by decide)).1

lemma find?_append_of_isSome {α : Type} {p : α → Bool} {l₁ l₂ : List α}
    (h : (l₁.find? p).isSome) : (l₁ ++ l₂).find? p = l₁.find? p := by
  rw [List.find?_append]
  obtain ⟨x, hx⟩ := Option.isSome_iff_exists.mp h
  rw [hx]
  rfl

/-- After the get-or-create step, looking the email up again in the session
finds exactly the student the step returned. -/
lemma fc_find_self (st : Store) (e : String) :
    ((findOrCreateStudent st e).2).students.find? (fun t => t.email == e) =
      some (findOrCreateStudent st e).1 := by
  cases hf : st.students.find? (fun t => t.email == e) with
  | some s => rw [fc_of_found hf]; exact hf
  | none =>
    have hstu : ((findOrCreateStudent st e).2).students =
        st.students ++ [⟨st.nextStudentId, e, none, none⟩] := by
      rw [fc_of_missing hf]
    have h1 : (findOrCreateStudent st e).1 =
        ⟨st.nextStudentId, e, none, none⟩ := by
      rw [fc_of_missing hf]
    rw [hstu, h1, List.find?_append, hf]
    simp

lemma filterMap_congr_mem {α β : Type} {l : List α} {f g : α → Option β}
    (h : ∀ x ∈ l, f x = g x) : l.filterMap f = l.filterMap g := by
  induction l with
  | nil => rfl
  | cons a l ih =>
    rw [List.filterMap_cons, List.filterMap_cons, h a (List.mem_cons_self a l),
      ih (fun x hx => h x (List.mem_cons_of_mem a hx))]

/-- Two stores with the same registration table and the same id-resolution of
every registered student have the same participant lists. -/
lemma participantsOf_congr {st st1 : Store} (a : Activity)
    (hreg : st1.registrations = st.registrations)
    (hres : ∀ r ∈ st.registrations,
      st1.students.find? (fun t => t.id == r.student_id) =
      st.students.find? (fun t => t.id == r.student_id)) :
    participantsOf st1 a = participantsOf st a := by
  unfold participantsOf
  rw [hreg]
  exact filterMap_congr_mem (fun r hr => by
    rw [hres r (List.mem_of_mem_filter hr)])

lemma get_activities_congr {st st1 : Store}
    (hact : st1.activities = st.activities)
    (hpart : ∀ a ∈ st.activities,
      participantsOf st1 a = participantsOf st a) :
    get_activities st1 = get_activities st := by
  unfold get_activities
  rw [hact]
  exact List.map_congr_left (fun a ha => by rw [hpart a ha])

/-- **C5**: whenever signup succeeds, a subsequent unregister for the same
(activity name, email) succeeds, and the list-activities report of the
resulting store equals the pre-signup report — in particular that activity's
participant list is back to exactly its pre-signup value. -/
theorem signup_unregister_round_trip (st : Store) (n e : String)
    (hwf : WF st) (hok : (signup_for_activity st n e).committed = true) :
    (unregister_from_activity (signupState st n e) n e).committed = true ∧
    get_activities (unregisterState (signupState st n e) n e) =
      get_activities st := by
  obtain ⟨hsid, hsemail, haid, haname, hrid, hpair, hfk, hsb, hrb⟩ := hwf
  obtain ⟨a, ha, hr⟩ := signup_committed_ok hok
  have heq := signup_ok ha hr
  have hA : (signupState st n e).activities = st.activities := by
    rw [signupState, heq, persistedAfter_of_committed rfl]
    exact fc_activities st e
  have hS : (signupState st n e).students =
      ((findOrCreateStudent st e).2).students := by
    rw [signupState, heq, persistedAfter_of_committed rfl]
  have hR : (signupState st n e).registrations = st.registrations ++
      [⟨st.nextRegId, (findOrCreateStudent st e).1.id, a.id⟩] := by
    rw [signupState, heq, persistedAfter_of_committed rfl]
  have hfs : (signupState st n e).students.find? (fun t => t.email == e) =
      some (findOrCreateStudent st e).1 := by
    rw [hS]; exact fc_find_self st e
  have hfa : (signupState st n e).activities.find? (fun x => x.name == n) =
      some a := by
    rw [hA]; exact ha
  have hfr2 : (signupState st n e).registrations.find?
      (fun x => x.student_id == (findOrCreateStudent st e).1.id &&
                x.activity_id == a.id) =
      some ⟨st.nextRegId, (findOrCreateStudent st e).1.id, a.id⟩ := by
    rw [hR, List.find?_append, hr]
    simp
  have huneq := unregister_ok hfs hfa hfr2
  refine ⟨by rw [huneq], ?_⟩
  have hfinal : unregisterState (signupState st n e) n e =
      { signupState st n e with
        registrations := (signupState st n e).registrations.filter
          (fun x => x.id != (⟨st.nextRegId, (findOrCreateStudent st e).1.id,
            a.id⟩ : Registration).id) } := by
    rw [unregisterState, huneq, persistedAfter_of_committed rfl]
  have hrestore : (signupState st n e).registrations.filter
      (fun x => x.id != (⟨st.nextRegId, (findOrCreateStudent st e).1.id,
        a.id⟩ : Registration).id) = st.registrations := by
    rw [hR, List.filter_append]
    have h1 : st.registrations.filter (fun x => x.id !=
        (⟨st.nextRegId, (findOrCreateStudent st e).1.id,
          a.id⟩ : Registration).id) = st.registrations :=
      List.filter_eq_self.mpr (fun x hx => by
        simp only [bne_iff_ne, ne_eq]
        exact Nat.ne_of_lt (hrb x hx))
    have h2 : List.filter (fun x => x.id !=
        (⟨st.nextRegId, (findOrCreateStudent st e).1.id,
          a.id⟩ : Registration).id)
        [(⟨st.nextRegId, (findOrCreateStudent st e).1.id,
          a.id⟩ : Registration)] = [] := by simp
    rw [h1, h2, List.append_nil]
  apply get_activities_congr
  · rw [hfinal]
    exact hA
  · intro a1 ha1
    apply participantsOf_congr
    · rw [hfinal]
      exact hrestore
    · intro r hrm
      have hstu : (unregisterState (signupState st n e) n e).students =
          ((findOrCreateStudent st e).2).students := by
        rw [hfinal]; exact hS
      rw [hstu]
      cases hf : st.students.find? (fun t => t.email == e) with
      | some s => rw [fc_of_found hf]
      | none =>
        have hstu2 : ((findOrCreateStudent st e).2).students =
            st.students ++ [⟨st.nextStudentId, e, none, none⟩] := by
          rw [fc_of_missing hf]
        rw [hstu2]
        obtain ⟨t, htmem, htid⟩ := hfk r hrm
        exact find?_append_of_isSome
          (List.find?_isSome.mpr ⟨t, htmem, by simp [htid]⟩)

theorem signup_unregister_round_trip_witness :
    get_activities (unregisterState
      (signupState demoStore "Chess Club" "daniel@mergington.edu")
      "Chess Club" "daniel@mergington.edu") = get_activities demoStore :=
  (signup_unregister_round_trip demoStore "Chess Club"
    "daniel@mergington.edu" (by decide) (by decide)).2

/-- Signup preserves the at-most-one-pair invariant: on its error paths the
persisted store is unchanged, and on its success path the inserted pair is
exactly the one the existence check just found absent. -/
lemma atMostOnePair_signup {st : Store} (h : AtMostOnePair st)
    (n e : String) : AtMostOnePair (signupState st n e) := by
  cases ha : st.activities.find? (fun x => x.name == n) with
  | none =>
    have hst : signupState st n e = st := by
      rw [signupState, signup_no_activity ha,
        persistedAfter_of_not_committed rfl]
    rw [hst]; exact h
  | some a =>
    cases hr : st.registrations.find?
        (fun x => x.student_id == (findOrCreateStudent st e).1.id &&
                  x.activity_id == a.id) with
    | some r =>
      have hst : signupState st n e = st := by
        rw [signupState, signup_conflict ha hr,
          persistedAfter_of_not_committed rfl]
      rw [hst]; exact h
    | none =>
      have hR : (signupState st n e).registrations = st.registrations ++
          [⟨st.nextRegId, (findOrCreateStudent st e).1.id, a.id⟩] := by
        rw [signupState, signup_ok ha hr, persistedAfter_of_committed rfl]
      unfold AtMostOnePair
      rw [hR]
      refine List.pairwise_append.mpr ⟨h, by simp, ?_⟩
      intro x hx b hb
      have hb1 : b = ⟨st.nextRegId, (findOrCreateStudent st e).1.id, a.id⟩ := by
        simpa using hb
      subst hb1
      have hnp := List.find?_eq_none.mp hr x hx
      simp only [Bool.and_eq_true, beq_iff_eq, not_and] at hnp
      by_cases h1 : x.student_id = (findOrCreateStudent st e).1.id
      · exact Or.inr (hnp h1)
      · exact Or.inl h1

/-- Unregister preserves the at-most-one-pair invariant: it only ever removes
registrations. -/
lemma atMostOnePair_unregister {st : Store} (h : AtMostOnePair st)
    (n e : String) : AtMostOnePair (unregisterState st n e) := by
  cases hs : st.students.find? (fun t => t.email == e) with
  | none =>
    have hst : unregisterState st n e = st := by
      rw [unregisterState, unregister_no_student hs,
        persistedAfter_of_not_committed rfl]
    rw [hst]; exact h
  | some s =>
    cases ha : st.activities.find? (fun x => x.name == n) with
    | none =>
      have hst : unregisterState st n e = st := by
        rw [unregisterState, unregister_no_activity hs ha,
          persistedAfter_of_not_committed rfl]
      rw [hst]; exact h
    | some a =>
      cases hr : st.registrations.find?
          (fun x => x.student_id == s.id && x.activity_id == a.id) with
      | none =>
        have hst : unregisterState st n e = st := by
          rw [unregisterState, unregister_no_reg hs ha hr,
            persistedAfter_of_not_committed rfl]
        rw [hst]; exact h
      | some r =>
        have hR : (unregisterState st n e).registrations =
            st.registrations.filter (fun x => x.id != r.id) := by
          rw [unregisterState, unregister_ok hs ha hr,
            persistedAfter_of_committed rfl]
        unfold AtMostOnePair
        rw [hR]
        exact h.sublist (List.filter_sublist st.registrations)

/-- **C1**: every store reachable from a state satisfying the
at-most-one-Registration-per-(student, activity)-pair invariant still
satisfies it: listing does not modify the store, and signup and unregister
preserve the invariant — signup enforcing it through its explicit existence
check before insert. -/
theorem registration_pair_unique (init st : Store)
    (hinit : AtMostOnePair init) (hreach : Reachable init st) :
    AtMostOnePair st := by
  induction hreach with
  | refl => exact hinit
  | signup n e hprev ih => exact atMostOnePair_signup ih n e
  | unregister n e hprev ih => exact atMostOnePair_unregister ih n e

theorem registration_pair_unique_witness :
    AtMostOnePair
      (signupState demoStore "Chess Club" "daniel@mergington.edu") :=
  registration_pair_unique demoStore
    (signupState demoStore "Chess Club" "daniel@mergington.edu") (by decide)
    (Reachable.signup "Chess Club" "daniel@mergington.edu" Reachable.refl)

end Mergington
